import Mathlib

/-!
Shallow embedding of `src/nets/gat2.py`: a DGL-style graph attention layer
(`GraphAttention2`) and the stacked model (`GAT2`).  Tensors are embedded as
functions into `ℝ` indexed by natural numbers, graphs as edge lists with the
edge id given by the position in the list, and the constructors are mirrored
both at the value level and at the configuration (dimension) level.
-/

namespace GatSpec

/-- Configuration of one `GraphAttention2` layer as fixed by the arguments of
`GAT2.__init__`: `in_dim`, `out_dim`, `num_heads`, the `residual` flag and the
`name` string. -/
structure LayerCfg where
  in_dim : ℕ
  out_dim : ℕ
  num_heads : ℕ
  residual : Bool
  name : String
deriving DecidableEq, Repr

/-- Default configuration used only as the `getD` fallback (the Python code
would raise `IndexError` out of range; all statements stay in range). -/
def cfgDflt : LayerCfg := ⟨0, 0, 0, false, ""⟩

/-- `GAT2.__init__` at the configuration level: the list of layer
configurations appended to `self.layers` for
`GAT2(g, num_layers, in_dim, num_hidden, num_classes, heads, ...)`.
One input-projection layer (residual forced off), the hidden loop
`for l in range(1, num_layers)` with `in_dim = num_hidden*heads[l-1]`, and one
output-projection layer using Python's `heads[-2]` and `heads[-1]`. -/
def mkLayerCfgs (num_layers in_dim num_hidden num_classes : ℕ)
    (heads : List ℕ) (residual : Bool) : List LayerCfg :=
  (⟨in_dim, num_hidden, heads.getD 0 0, false, "0"⟩ : LayerCfg) ::
    ((List.range (num_layers - 1)).map (fun i =>
      (⟨num_hidden * heads.getD i 0, num_hidden, heads.getD (i + 1) 0,
        residual, toString (i + 1)⟩ : LayerCfg)))
    ++ [⟨num_hidden * heads.getD (heads.length - 2) 0, num_classes,
      heads.getD (heads.length - 1) 0, residual, "X"⟩]

/-- Width bookkeeping of one `h = self.layers[l](h).flatten(1)` step: the two
linear projections require the incoming feature width to equal the layer's
`in_dim`, and the flattened `[N, H, out_dim]` output has width
`num_heads * out_dim`. -/
def stepW (c : LayerCfg) (w : ℕ) : Option ℕ :=
  if w = c.in_dim then some (c.num_heads * c.out_dim) else none

/-- Width bookkeeping of the loop part of `GAT2.forward`: layers
`0 .. num_layers - 1` are applied and flattened in order (the `activation` and
`tanh` calls preserve the shape). -/
def loopWidth (num_layers : ℕ) (cfgs : List LayerCfg) (w0 : ℕ) : Option ℕ :=
  (List.range num_layers).foldl (fun ow l => ow.bind (stepW (cfgs.getD l cfgDflt)))
    (some w0)

/-- Width bookkeeping of the whole `GAT2.forward`: the loop, then
`self.layers[-1](h).mean(1)`, which requires the current width to equal the
final layer's `in_dim` and yields width `out_dim` (the head dimension is
averaged away). -/
def forwardWidth (num_layers : ℕ) (cfgs : List LayerCfg) (w0 : ℕ) : Option ℕ :=
  (loopWidth num_layers cfgs w0).bind (fun v =>
    let c := cfgs.getD (cfgs.length - 1) cfgDflt
    if v = c.in_dim then some c.out_dim else none)

/-- The graph bindings held by a `GAT2` model: the model's own `self.g`
together with the `self.g` field of every layer in `self.layers` (index =
position in the layer list).  `γ` stands for graph object identities. -/
structure GAT2Bind (γ : Type) where
  g : γ
  num_layers : ℕ
  layersG : List γ
deriving DecidableEq

/-- Graph bindings right after `GAT2.__init__`: every constructed layer is
passed the same `g`; `1 + (num_layers - 1) + 1` layers are appended (input
projection, the hidden loop, output projection). -/
def mkGAT2Bind {γ : Type} (g : γ) (num_layers : ℕ) : GAT2Bind γ :=
  ⟨g, num_layers, List.replicate (1 + (num_layers - 1) + 1) g⟩

/-- `GAT2.set_g`: `self.g = g` followed by
`for l in range(self.num_layers): self.layers[l].g = g` — only the layer
slots with index `< num_layers` are rebound. -/
def GAT2Bind.set_g {γ : Type} (m : GAT2Bind γ) (g : γ) : GAT2Bind γ :=
  ⟨g, m.num_layers,
    (List.range m.layersG.length).map (fun i =>
      if i < m.num_layers then g else m.layersG.getD i m.g)⟩

/-- A DGL graph: `numNodes` nodes `0 .. numNodes - 1` and a list of directed
edges `(src, dst)`; the edge id is the position in the list.  The layer never
mutates the topology, only the attached attribute tensors (which are kept
explicit below instead of stored in the graph). -/
structure DGLGraph where
  numNodes : ℕ
  edges : List (ℕ × ℕ)
deriving DecidableEq

/-- Source endpoint of edge `e`. -/
def DGLGraph.src (g : DGLGraph) (e : ℕ) : ℕ := (g.edges.getD e (0, 0)).1

/-- Destination endpoint of edge `e`. -/
def DGLGraph.dst (g : DGLGraph) (e : ℕ) : ℕ := (g.edges.getD e (0, 0)).2

/-- Ids of the edges pointing into node `v`: DGL's grouping of edges by
destination node, used both by `EdgeSoftmax` and by the `update_all` sum
reducer. -/
def DGLGraph.inEdges (g : DGLGraph) (v : ℕ) : List ℕ :=
  (List.range g.edges.length).filter (fun e => g.dst e = v)

/-- The dropout installed by the constructor: `nn.Dropout(p)` when `p ≠ 0`
(training mode: multiply by an externally drawn Bernoulli mask, rescale by
`1/(1-p)`), and the identity `lambda x : x` when `p = 0` — the mask is then
never consulted. -/
noncomputable def dropout2 (p : ℝ) (mask x : ℕ → ℕ → ℝ) : ℕ → ℕ → ℝ :=
  if p = 0 then x else fun i j => mask i j * x i j / (1 - p)

/-- `nn.LeakyReLU(alpha)`: identity on the nonnegative half line, slope
`alpha` on the negative one. -/
noncomputable def leakyReLU (alpha x : ℝ) : ℝ := if 0 ≤ x then x else alpha * x

/-- A `GraphAttention2` layer: the bound graph, the dimensions and the
learnable parameters.  Weight matrices are `row → column → ℝ` and `nn.Linear`
without bias applies `x ↦ x Wᵀ`; `attn_l`/`attn_r` have shape
`(num_heads, out_dim, 1)`.  `res_fcW` is the optional `res_fc` weight
(`None` encoded as `none`). -/
structure GraphAttention2 where
  g : DGLGraph
  in_dim : ℕ
  out_dim : ℕ
  num_heads : ℕ
  fc1W : ℕ → ℕ → ℝ
  fc2W : ℕ → ℕ → ℝ
  attn_l : ℕ → ℕ → ℕ → ℝ
  attn_r : ℕ → ℕ → ℕ → ℝ
  feat_drop : ℝ
  attn_drop : ℝ
  alpha : ℝ
  residual : Bool
  res_fcW : Option (ℕ → ℕ → ℝ)
  name : String

/-- `GraphAttention2.__init__`: stores the arguments and builds `res_fc` only
under `residual` with `in_dim != out_dim`; under `residual` with
`in_dim == out_dim` it sets `self.res_fc = None` (broadcast residual).  The
Xavier-normal draws are external randomness, so the weight values are taken
as inputs. -/
def mkGraphAttention2 (g : DGLGraph) (in_dim out_dim num_heads : ℕ)
    (fc1W fc2W : ℕ → ℕ → ℝ) (attn_l attn_r : ℕ → ℕ → ℕ → ℝ)
    (resW : ℕ → ℕ → ℝ) (feat_drop attn_drop alpha : ℝ) (name : String)
    (residual : Bool) : GraphAttention2 :=
  ⟨g, in_dim, out_dim, num_heads, fc1W, fc2W, attn_l, attn_r, feat_drop,
    attn_drop, alpha, residual,
    if residual = true ∧ in_dim ≠ out_dim then some resW else none, name⟩

/-- `h = self.feat_drop(inputs)`. -/
noncomputable def GraphAttention2.hdrop (L : GraphAttention2)
    (X fmask : ℕ → ℕ → ℝ) : ℕ → ℕ → ℝ :=
  dropout2 L.feat_drop fmask X

/-- `ft1 = self.fc1(h)`: bias-free linear map, `(h W₁ᵀ) n j = Σ k, W₁ j k * h n k`. -/
noncomputable def GraphAttention2.ft1 (L : GraphAttention2)
    (X fmask : ℕ → ℕ → ℝ) : ℕ → ℕ → ℝ :=
  fun n j => ∑ k ∈ Finset.range L.in_dim, L.fc1W j k * L.hdrop X fmask n k

/-- `h2 = self.leaky_relu1(ft1)`. -/
noncomputable def GraphAttention2.h2 (L : GraphAttention2)
    (X fmask : ℕ → ℕ → ℝ) : ℕ → ℕ → ℝ :=
  fun n j => leakyReLU L.alpha (L.ft1 X fmask n j)

/-- `self.fc2(h2)`: shape `[N, num_heads*out_dim]`. -/
noncomputable def GraphAttention2.fc2out (L : GraphAttention2)
    (X fmask : ℕ → ℕ → ℝ) : ℕ → ℕ → ℝ :=
  fun n j => ∑ k ∈ Finset.range L.in_dim, L.fc2W j k * L.h2 X fmask n k

/-- `ft2 = self.fc2(h2).reshape((N, num_heads, -1))`: row-major reshape,
entry `(n, hd, d)` reads flat column `hd * out_dim + d`. -/
noncomputable def GraphAttention2.ft2 (L : GraphAttention2)
    (X fmask : ℕ → ℕ → ℝ) : ℕ → ℕ → ℕ → ℝ :=
  fun n hd d => L.fc2out X fmask n (hd * L.out_dim + d)

/-- `head_ft = ft2.transpose(0, 1)`: shape `[H, N, out_dim]`. -/
noncomputable def GraphAttention2.head_ft (L : GraphAttention2)
    (X fmask : ℕ → ℕ → ℝ) : ℕ → ℕ → ℕ → ℝ :=
  fun hd n d => L.ft2 X fmask n hd d

/-- `torch.bmm`: batched matrix product of `[H, n, m]` with `[H, m, p]`
tensors, contracting the middle dimension of size `m`. -/
noncomputable def bmm (m : ℕ) (A B : ℕ → ℕ → ℕ → ℝ) : ℕ → ℕ → ℕ → ℝ :=
  fun h i j => ∑ k ∈ Finset.range m, A h i k * B h k j

/-- `a1 = torch.bmm(head_ft, self.attn_l).transpose(0, 1)`: shape `[N, H, 1]`,
read at last index `0`. -/
noncomputable def GraphAttention2.a1 (L : GraphAttention2)
    (X fmask : ℕ → ℕ → ℝ) : ℕ → ℕ → ℝ :=
  fun n hd => bmm L.out_dim (L.head_ft X fmask) L.attn_l hd n 0

/-- `a2 = torch.bmm(head_ft, self.attn_r).transpose(0, 1)`. -/
noncomputable def GraphAttention2.a2 (L : GraphAttention2)
    (X fmask : ℕ → ℕ → ℝ) : ℕ → ℕ → ℝ :=
  fun n hd => bmm L.out_dim (L.head_ft X fmask) L.attn_r hd n 0

/-- `self.g.apply_edges(self.edge_attention)`: per edge and head,
`a = self.leaky_relu1(edges.src['a1'] + edges.dst['a2'])`. -/
noncomputable def GraphAttention2.edgeA (L : GraphAttention2)
    (X fmask : ℕ → ℕ → ℝ) : ℕ → ℕ → ℝ :=
  fun e hd => leakyReLU L.alpha
    (L.a1 X fmask (L.g.src e) hd + L.a2 X fmask (L.g.dst e) hd)

/-- The per-destination maximum subtracted by DGL's `EdgeSoftmax`
(`exp(x - max(x))` for numerical stability); `0` when the node has no
incoming edge (the value is then never used). -/
noncomputable def GraphAttention2.maxIn (L : GraphAttention2)
    (X fmask : ℕ → ℕ → ℝ) : ℕ → ℕ → ℝ :=
  fun v hd => ((L.g.inEdges v).map (fun e => L.edgeA X fmask e hd)).foldr max 0

/-- `exp(a - max)` per edge and head. -/
noncomputable def GraphAttention2.expA (L : GraphAttention2)
    (X fmask : ℕ → ℕ → ℝ) : ℕ → ℕ → ℝ :=
  fun e hd => Real.exp (L.edgeA X fmask e hd - L.maxIn X fmask (L.g.dst e) hd)

/-- `sum(exp(a - max))` over the incoming edges of each destination node. -/
noncomputable def GraphAttention2.sumExp (L : GraphAttention2)
    (X fmask : ℕ → ℕ → ℝ) : ℕ → ℕ → ℝ :=
  fun v hd => ((L.g.inEdges v).map (fun e => L.expA X fmask e hd)).sum

/-- `scores = self.softmax.apply(self.g, self.g.edata['a'])`: DGL's
`EdgeSoftmax`, the full softmax per destination node and head,
`exp(a - max) / Σ exp(a - max)` over the incoming edges. -/
noncomputable def GraphAttention2.scores (L : GraphAttention2)
    (X fmask : ℕ → ℕ → ℝ) : ℕ → ℕ → ℝ :=
  fun e hd => L.expA X fmask e hd / L.sumExp X fmask (L.g.dst e) hd

/-- `self.g.edata['a_drop'] = self.attn_drop(scores)`. -/
noncomputable def GraphAttention2.a_drop (L : GraphAttention2)
    (X fmask amask : ℕ → ℕ → ℝ) : ℕ → ℕ → ℝ :=
  dropout2 L.attn_drop amask (L.scores X fmask)

/-- `self.g.update_all(fn.src_mul_edge('ft','a_drop','ft'), fn.sum('ft','ft'))`:
for each node the sum, over its incoming edges, of the source node's `ft`
scaled by the edge's `a_drop` scalar (broadcast over `out_dim`); nodes with no
incoming edge get the zero vector. -/
noncomputable def GraphAttention2.agg (L : GraphAttention2)
    (X fmask amask : ℕ → ℕ → ℝ) : ℕ → ℕ → ℕ → ℝ :=
  fun v hd d => ((L.g.inEdges v).map
    (fun e => L.ft2 X fmask (L.g.src e) hd d * L.a_drop X fmask amask e hd)).sum

/-- The residual summand: `self.res_fc(h).reshape((N, num_heads, -1))` when
`res_fc` is present, otherwise `torch.unsqueeze(h, 1)` — the dropped input
broadcast across the head dimension. -/
noncomputable def GraphAttention2.resval (L : GraphAttention2)
    (X fmask : ℕ → ℕ → ℝ) : ℕ → ℕ → ℕ → ℝ :=
  fun n hd d =>
    match L.res_fcW with
    | some W => ∑ k ∈ Finset.range L.in_dim, W (hd * L.out_dim + d) k * L.hdrop X fmask n k
    | none => L.hdrop X fmask n d

/-- `GraphAttention2.forward`: `ret = self.g.ndata['ft']` — the aggregation
result, the normaliser division `/ self.g.ndata['z']` being commented out —
plus `resval` when the residual flag is set. -/
noncomputable def GraphAttention2.forward (L : GraphAttention2)
    (X fmask amask : ℕ → ℕ → ℝ) : ℕ → ℕ → ℕ → ℝ :=
  fun n hd d =>
    if L.residual then L.resval X fmask n hd d + L.agg X fmask amask n hd d
    else L.agg X fmask amask n hd d

/-- The layer's forward with the tensor shapes observable: a `[N, H, D']`
tensor as nested lists with `N = inputs.length`, `H = num_heads`,
`D' = out_dim`; the input features are read off the input rows
(out-of-range reads default to `0`, matching an unused pad). -/
noncomputable def GraphAttention2.forwardT (L : GraphAttention2)
    (inputs : List (List ℝ)) (fmask amask : ℕ → ℕ → ℝ) :
    List (List (List ℝ)) :=
  (List.range inputs.length).map (fun n =>
    (List.range L.num_heads).map (fun hd =>
      (List.range L.out_dim).map (fun d =>
        L.forward (fun i j => (inputs.getD i []).getD j 0) fmask amask n hd d)))

/-- Fallback layer for `getD` on the layer list (the Python code would raise
`IndexError` out of range; all statements stay in range). -/
def defaultLayer : GraphAttention2 :=
  ⟨⟨0, []⟩, 0, 0, 0, fun _ _ => 0, fun _ _ => 0, fun _ _ _ => 0,
    fun _ _ _ => 0, 0, 0, 0, false, none, ""⟩

/-- The stacked model `GAT2`: bound graph, `num_layers`, the layer list and
the externally supplied activation. -/
structure GAT2 where
  g : DGLGraph
  num_layers : ℕ
  layers : List GraphAttention2
  activation : ℝ → ℝ

/-- `GAT2.__init__`: the input-projection layer (residual forced off), the
hidden loop `for l in range(1, num_layers)`, and the output-projection layer
with `in_dim = num_hidden*heads[-2]`, `out_dim = num_classes` and
`heads[-1]` heads.  The per-layer weight draws are supplied as families
indexed by the position of the layer in `self.layers`. -/
def mkGAT2 (g : DGLGraph) (num_layers in_dim num_hidden num_classes : ℕ)
    (heads : List ℕ) (activation : ℝ → ℝ) (feat_drop attn_drop alpha : ℝ)
    (residual : Bool) (fc1Ws fc2Ws : ℕ → ℕ → ℕ → ℝ)
    (attn_ls attn_rs : ℕ → ℕ → ℕ → ℕ → ℝ) (resWs : ℕ → ℕ → ℕ → ℝ) : GAT2 :=
  ⟨g, num_layers,
    mkGraphAttention2 g in_dim num_hidden (heads.getD 0 0) (fc1Ws 0) (fc2Ws 0)
      (attn_ls 0) (attn_rs 0) (resWs 0) feat_drop attn_drop alpha "0" false ::
      ((List.range (num_layers - 1)).map (fun i =>
        mkGraphAttention2 g (num_hidden * heads.getD i 0) num_hidden
          (heads.getD (i + 1) 0) (fc1Ws (i + 1)) (fc2Ws (i + 1))
          (attn_ls (i + 1)) (attn_rs (i + 1)) (resWs (i + 1))
          feat_drop attn_drop alpha (toString (i + 1)) residual))
      ++ [mkGraphAttention2 g (num_hidden * heads.getD (heads.length - 2) 0)
        num_classes (heads.getD (heads.length - 1) 0) (fc1Ws num_layers)
        (fc2Ws num_layers) (attn_ls num_layers) (attn_rs num_layers)
        (resWs num_layers) feat_drop attn_drop alpha "X" residual],
    activation⟩

/-- One pipeline step `h = self.layers[l](h).flatten(1)`: flattening the
`[N, H, D']` tensor row-major concatenates the per-head rows of each node. -/
noncomputable def layerFlat (L : GraphAttention2) (h : List (List ℝ))
    (fmask amask : ℕ → ℕ → ℝ) : List (List ℝ) :=
  (L.forwardT h fmask amask).map (fun r => r.flatten)

/-- The pipeline of `GAT2.forward` before the output projection: the loop
`for l in range(self.num_layers - 1)` applying layer, flatten and
`self.activation`, then layer `num_layers - 1` with flatten and `torch.tanh`.
The dropout masks are families indexed by the pipeline position. -/
noncomputable def GAT2.preOut (m : GAT2) (inputs : List (List ℝ))
    (fmasks amasks : ℕ → ℕ → ℕ → ℝ) : List (List ℝ) :=
  (layerFlat (m.layers.getD (m.num_layers - 1) defaultLayer)
      ((List.range (m.num_layers - 1)).foldl
        (fun h l => (layerFlat (m.layers.getD l defaultLayer) h (fmasks l)
          (amasks l)).map (fun r => r.map m.activation)) inputs)
      (fmasks (m.num_layers - 1)) (amasks (m.num_layers - 1))).map
    (fun r => r.map Real.tanh)

/-- `GAT2.forward`: the pipeline, then
`logits = self.layers[-1](h).mean(1)` — the final layer followed by the mean
over the head dimension, giving one row of `out_dim` class logits per node. -/
noncomputable def GAT2.forward (m : GAT2) (inputs : List (List ℝ))
    (fmasks amasks : ℕ → ℕ → ℕ → ℝ) : List (List ℝ) :=
  ((m.layers.getD (m.layers.length - 1) defaultLayer).forwardT
      (m.preOut inputs fmasks amasks) (fmasks m.num_layers)
      (amasks m.num_layers)).map (fun r =>
    (List.range (m.layers.getD (m.layers.length - 1) defaultLayer).out_dim).map
      (fun c => (r.map (fun hr => hr.getD c 0)).sum
        / ((m.layers.getD (m.layers.length - 1) defaultLayer).num_heads : ℝ)))

/-- Concrete two-node graph with the single edge `0 → 1`, used to instantiate
the general theorems: node `1` has one incoming edge, node `0` none. -/
def wGraph : DGLGraph := ⟨2, [(0, 1)]⟩

/-- Concrete layer bound to `wGraph` (zero weights, unit slope, zero dropout
probabilities, residual off), used to instantiate the general theorems. -/
def wLayer : GraphAttention2 :=
  ⟨wGraph, 1, 1, 1, fun _ _ => 0, fun _ _ => 0, fun _ _ _ => 0, fun _ _ _ => 0,
    0, 0, 1, false, none, "0"⟩

/-! ## Helper lemmas -/

theorem getD_map_range {α : Type _} (f : ℕ → α) (k i : ℕ) (d : α) (hi : i < k) :
    ((List.range k).map f).getD i d = f i := by
  rw [List.getD_eq_getElem?_getD]
  simp [List.getElem?_map, List.getElem?_range, hi]

theorem getD_cons_append_last {α : Type _} (a b d : α) (ls : List α) :
    (a :: (ls ++ [b])).getD (ls.length + 1) d = b := by
  rw [List.getD_cons_succ, List.getD_eq_getElem?_getD]
  rw [List.getElem?_append_right (le_refl _)]
  simp

theorem getD_cons_append_mid {α : Type _} (a b d : α) (ls : List α) (i : ℕ)
    (hi : i < ls.length) :
    (a :: (ls ++ [b])).getD (i + 1) d = ls.getD i d := by
  rw [List.getD_cons_succ, List.getD_eq_getElem?_getD, List.getD_eq_getElem?_getD]
  rw [List.getElem?_append, if_pos hi]

theorem mkLayerCfgs_length (num_layers in_dim num_hidden num_classes : ℕ)
    (heads : List ℕ) (residual : Bool) :
    (mkLayerCfgs num_layers in_dim num_hidden num_classes heads residual).length
      = num_layers - 1 + 2 := by
  simp [mkLayerCfgs]

theorem mkLayerCfgs_getD_zero (num_layers in_dim num_hidden num_classes : ℕ)
    (heads : List ℕ) (residual : Bool) :
    (mkLayerCfgs num_layers in_dim num_hidden num_classes heads residual).getD 0 cfgDflt
      = ⟨in_dim, num_hidden, heads.getD 0 0, false, "0"⟩ := rfl

theorem mkLayerCfgs_getD_mid (num_layers in_dim num_hidden num_classes : ℕ)
    (heads : List ℕ) (residual : Bool) (l : ℕ) (h1 : 1 ≤ l)
    (h2 : l ≤ num_layers - 1) :
    (mkLayerCfgs num_layers in_dim num_hidden num_classes heads residual).getD l cfgDflt
      = ⟨num_hidden * heads.getD (l - 1) 0, num_hidden, heads.getD l 0,
          residual, toString l⟩ := by
  obtain ⟨i, rfl⟩ : ∃ i, l = i + 1 := ⟨l - 1, by omega⟩
  have hi : i < num_layers - 1 := by omega
  unfold mkLayerCfgs
  rw [List.cons_append, List.getD_cons_succ, List.getD_eq_getElem?_getD,
    List.getElem?_append]
  simp [List.getElem?_map, List.getElem?_range, hi]

theorem mkLayerCfgs_getD_top (num_layers in_dim num_hidden num_classes : ℕ)
    (heads : List ℕ) (residual : Bool) (h1 : 1 ≤ num_layers) :
    (mkLayerCfgs num_layers in_dim num_hidden num_classes heads residual).getD
        num_layers cfgDflt
      = ⟨num_hidden * heads.getD (heads.length - 2) 0, num_classes,
          heads.getD (heads.length - 1) 0, residual, "X"⟩ := by
  obtain ⟨k, hk⟩ : ∃ k, num_layers = k + 1 := ⟨num_layers - 1, by omega⟩
  subst hk
  unfold mkLayerCfgs
  rw [List.cons_append, List.getD_cons_succ, List.getD_eq_getElem?_getD]
  rw [List.getElem?_append_right (by simp)]
  simp

theorem loopWidth_zero (cfgs : List LayerCfg) (w0 : ℕ) :
    loopWidth 0 cfgs w0 = some w0 := rfl

theorem loopWidth_succ (n : ℕ) (cfgs : List LayerCfg) (w0 : ℕ) :
    loopWidth (n + 1) cfgs w0
      = (loopWidth n cfgs w0).bind (stepW (cfgs.getD n cfgDflt)) := by
  simp [loopWidth, List.range_succ]

theorem loopWidth_mkLayerCfgs (num_layers in_dim num_hidden num_classes : ℕ)
    (heads : List ℕ) (residual : Bool) (l : ℕ) (h1 : 1 ≤ l)
    (h2 : l ≤ num_layers) :
    loopWidth l (mkLayerCfgs num_layers in_dim num_hidden num_classes heads residual)
        in_dim
      = some (heads.getD (l - 1) 0 * num_hidden) := by
  induction l with
  | zero => omega
  | succ n ih =>
    rcases Nat.eq_zero_or_pos n with h0 | hpos
    · subst h0
      rw [loopWidth_succ, loopWidth_zero, mkLayerCfgs_getD_zero]
      simp [stepW]
    · rw [loopWidth_succ, ih hpos (by omega)]
      rw [mkLayerCfgs_getD_mid num_layers in_dim num_hidden num_classes heads
        residual n hpos (by omega)]
      simp [stepW, Nat.mul_comm]

theorem getD_map_lt {α β : Type _} (f : α → β) (l : List α) (n : ℕ)
    (hn : n < l.length) (d : β) (d' : α) :
    (l.map f).getD n d = f (l.getD n d') := by
  rw [List.getD_eq_getElem?_getD, List.getD_eq_getElem?_getD, List.getElem?_map,
    List.getElem?_eq_getElem hn]
  simp

theorem forwardT_length (L : GraphAttention2) (ins : List (List ℝ))
    (fm am : ℕ → ℕ → ℝ) : (L.forwardT ins fm am).length = ins.length := by
  simp [GraphAttention2.forwardT]

theorem forwardT_shape (L : GraphAttention2) (ins : List (List ℝ))
    (fm am : ℕ → ℕ → ℝ) :
    ∀ r ∈ L.forwardT ins fm am, r.length = L.num_heads ∧
      ∀ q ∈ r, q.length = L.out_dim := by
  intro r hr
  simp only [GraphAttention2.forwardT, List.mem_map, List.mem_range] at hr
  obtain ⟨n, _, rfl⟩ := hr
  refine ⟨by simp, ?_⟩
  intro q hq
  simp only [List.mem_map, List.mem_range] at hq
  obtain ⟨hd, _, rfl⟩ := hq
  simp

theorem layerFlat_length (L : GraphAttention2) (h : List (List ℝ))
    (fm am : ℕ → ℕ → ℝ) : (layerFlat L h fm am).length = h.length := by
  simp [layerFlat, GraphAttention2.forwardT]

theorem pipeline_foldl_length (m : GAT2) (fms ams : ℕ → ℕ → ℕ → ℝ)
    (ls : List ℕ) :
    ∀ h : List (List ℝ),
      (ls.foldl (fun h l =>
        (layerFlat (m.layers.getD l defaultLayer) h (fms l) (ams l)).map
          (fun r => r.map m.activation)) h).length = h.length := by
  induction ls with
  | nil => intro h; rfl
  | cons a as ih =>
    intro h
    rw [List.foldl_cons, ih, List.length_map, layerFlat_length]

theorem preOut_length (m : GAT2) (inputs : List (List ℝ))
    (fms ams : ℕ → ℕ → ℕ → ℝ) :
    (m.preOut inputs fms ams).length = inputs.length := by
  unfold GAT2.preOut
  rw [List.length_map, layerFlat_length, pipeline_foldl_length]

theorem GAT2_forward_length (m : GAT2) (inputs : List (List ℝ))
    (fms ams : ℕ → ℕ → ℕ → ℝ) :
    (m.forward inputs fms ams).length = inputs.length := by
  unfold GAT2.forward
  rw [List.length_map, forwardT_length, preOut_length]

theorem mkGAT2_layers_length (g : DGLGraph)
    (num_layers in_dim num_hidden num_classes : ℕ) (heads : List ℕ)
    (activation : ℝ → ℝ) (feat_drop attn_drop alpha : ℝ) (residual : Bool)
    (fc1Ws fc2Ws : ℕ → ℕ → ℕ → ℝ) (attn_ls attn_rs : ℕ → ℕ → ℕ → ℕ → ℝ)
    (resWs : ℕ → ℕ → ℕ → ℝ) :
    (mkGAT2 g num_layers in_dim num_hidden num_classes heads activation
      feat_drop attn_drop alpha residual fc1Ws fc2Ws attn_ls attn_rs
      resWs).layers.length = num_layers - 1 + 2 := by
  simp [mkGAT2]

theorem mkGAT2_last_layer (g : DGLGraph)
    (num_layers in_dim num_hidden num_classes : ℕ) (heads : List ℕ)
    (activation : ℝ → ℝ) (feat_drop attn_drop alpha : ℝ) (residual : Bool)
    (fc1Ws fc2Ws : ℕ → ℕ → ℕ → ℝ) (attn_ls attn_rs : ℕ → ℕ → ℕ → ℕ → ℝ)
    (resWs : ℕ → ℕ → ℕ → ℝ) :
    (mkGAT2 g num_layers in_dim num_hidden num_classes heads activation
        feat_drop attn_drop alpha residual fc1Ws fc2Ws attn_ls attn_rs
        resWs).layers.getD
      ((mkGAT2 g num_layers in_dim num_hidden num_classes heads activation
        feat_drop attn_drop alpha residual fc1Ws fc2Ws attn_ls attn_rs
        resWs).layers.length - 1) defaultLayer
    = mkGraphAttention2 g (num_hidden * heads.getD (heads.length - 2) 0)
        num_classes (heads.getD (heads.length - 1) 0) (fc1Ws num_layers)
        (fc2Ws num_layers) (attn_ls num_layers) (attn_rs num_layers)
        (resWs num_layers) feat_drop attn_drop alpha "X" residual := by
  have hidx : (mkGAT2 g num_layers in_dim num_hidden num_classes heads activation
      feat_drop attn_drop alpha residual fc1Ws fc2Ws attn_ls attn_rs
      resWs).layers.length - 1 = num_layers - 1 + 1 := by
    rw [mkGAT2_layers_length]
    omega
  rw [hidx]
  unfold mkGAT2
  rw [List.cons_append, List.getD_cons_succ, List.getD_eq_getElem?_getD]
  rw [List.getElem?_append_right (by simp)]
  simp

/-! ## Claim theorems -/

/-- C1: the claim says `set_g` rebinds every `AttentionLayer` instance held by
the model to the new graph.  The code loops only over
`range(self.num_layers)` while `__init__` appended `num_layers + 1` layers, so
the output layer `self.layers[-1]` — the one `forward` applies last — keeps
the previous graph.  Concretely: a model built with `num_layers = 1` over
graph `0` holds two layers, and after `set_g 1` the layer bindings are
`[1, 0]`, not `[1, 1]`. -/
theorem c1_set_g_leaves_output_layer_stale :
    (mkGAT2Bind (0 : ℕ) 1).layersG.length = 2 ∧
    ((mkGAT2Bind (0 : ℕ) 1).set_g 1).layersG = [1, 0] ∧
    ((mkGAT2Bind (0 : ℕ) 1).set_g 1).layersG ≠ [1, 1] := by decide

/-- C2, counterexample: the claim says the constructor builds exactly
`L = num_layers` `AttentionLayer` instances; with `num_layers = 2` it builds
`3`, not `2`. -/
theorem c2_counterexample :
    ¬ (mkLayerCfgs 2 5 8 3 [2, 2] false).length = 2 := by decide

/-- C2, amended: for a head list of length `L = num_layers` (`L ≥ 2`), the
constructor builds exactly `L + 1` layers: layer `0` maps `in_dim` to
`num_hidden` with `heads[0]` heads and residual off, layers `1 .. L-1` map
`num_hidden*heads[l-1]` to `num_hidden` with `heads[l]` heads, and layer `L`
(the output layer) maps `num_hidden*heads[L-2]` to `num_classes` with
`heads[L-1]` heads. -/
theorem c2_layer_construction (num_layers in_dim num_hidden num_classes : ℕ)
    (heads : List ℕ) (residual : Bool) (hH : heads.length = num_layers)
    (hL : 2 ≤ num_layers) :
    (mkLayerCfgs num_layers in_dim num_hidden num_classes heads residual).length
        = num_layers + 1 ∧
    (mkLayerCfgs num_layers in_dim num_hidden num_classes heads residual).getD 0
        cfgDflt = ⟨in_dim, num_hidden, heads.getD 0 0, false, "0"⟩ ∧
    (∀ l, 1 ≤ l → l ≤ num_layers - 1 →
      (mkLayerCfgs num_layers in_dim num_hidden num_classes heads residual).getD l
          cfgDflt
        = ⟨num_hidden * heads.getD (l - 1) 0, num_hidden, heads.getD l 0,
            residual, toString l⟩) ∧
    (mkLayerCfgs num_layers in_dim num_hidden num_classes heads residual).getD
        num_layers cfgDflt
      = ⟨num_hidden * heads.getD (num_layers - 2) 0, num_classes,
          heads.getD (num_layers - 1) 0, residual, "X"⟩ := by
  refine ⟨?_, mkLayerCfgs_getD_zero _ _ _ _ _ _, ?_, ?_⟩
  · rw [mkLayerCfgs_length]; omega
  · intro l h1 h2
    exact mkLayerCfgs_getD_mid num_layers in_dim num_hidden num_classes heads
      residual l h1 h2
  · rw [mkLayerCfgs_getD_top num_layers in_dim num_hidden num_classes heads
      residual (by omega), hH]

/-- C2, witness: the amended statement instantiated at `num_layers = 2`,
`heads = [1, 1]`. -/
theorem c2_witness :
    ([1, 1] : List ℕ).length = 2 ∧ 2 ≤ 2 ∧
      ((mkLayerCfgs 2 7 5 3 [1, 1] false).length = 2 + 1 ∧
        (mkLayerCfgs 2 7 5 3 [1, 1] false).getD 0 cfgDflt
          = ⟨7, 5, ([1, 1] : List ℕ).getD 0 0, false, "0"⟩ ∧
        (∀ l, 1 ≤ l → l ≤ 2 - 1 →
          (mkLayerCfgs 2 7 5 3 [1, 1] false).getD l cfgDflt
            = ⟨5 * ([1, 1] : List ℕ).getD (l - 1) 0, 5,
                ([1, 1] : List ℕ).getD l 0, false, toString l⟩) ∧
        (mkLayerCfgs 2 7 5 3 [1, 1] false).getD 2 cfgDflt
          = ⟨5 * ([1, 1] : List ℕ).getD (2 - 2) 0, 3,
              ([1, 1] : List ℕ).getD (2 - 1) 0, false, "X"⟩) :=
  ⟨rfl, by decide, c2_layer_construction 2 7 5 3 [1, 1] false rfl (by decide)⟩

/-- C10: with a head list of length `num_layers` (as the spec fixes it) and
`num_hidden ≥ 1`, the output layer's input width is `num_hidden*heads[-2]`,
the layer feeding it leaves flattened features of width
`num_hidden*heads[-1]`, and the stacked forward pass is shape-consistent
exactly when `heads[-2] = heads[-1]`. -/
theorem c10_output_layer_shape_consistency
    (num_layers in_dim num_hidden num_classes : ℕ) (heads : List ℕ)
    (residual : Bool) (hH : heads.length = num_layers) (hL : 2 ≤ num_layers)
    (hnh : 1 ≤ num_hidden) :
    ((mkLayerCfgs num_layers in_dim num_hidden num_classes heads residual).getD
        num_layers cfgDflt).in_dim = num_hidden * heads.getD (num_layers - 2) 0 ∧
    loopWidth num_layers
        (mkLayerCfgs num_layers in_dim num_hidden num_classes heads residual)
        in_dim
      = some (heads.getD (num_layers - 1) 0 * num_hidden) ∧
    ((forwardWidth num_layers
        (mkLayerCfgs num_layers in_dim num_hidden num_classes heads residual)
        in_dim).isSome
      ↔ heads.getD (num_layers - 2) 0 = heads.getD (num_layers - 1) 0) := by
  have htop := mkLayerCfgs_getD_top num_layers in_dim num_hidden num_classes heads
    residual (by omega)
  have hloop := loopWidth_mkLayerCfgs num_layers in_dim num_hidden num_classes heads
    residual num_layers (by omega) le_rfl
  refine ⟨by rw [htop, hH], hloop, ?_⟩
  have hlen : (mkLayerCfgs num_layers in_dim num_hidden num_classes heads
      residual).length - 1 = num_layers := by
    rw [mkLayerCfgs_length]; omega
  unfold forwardWidth
  rw [hloop, hlen, htop, hH]
  have key : heads.getD (num_layers - 1) 0 * num_hidden
      = num_hidden * heads.getD (num_layers - 2) 0
      ↔ heads.getD (num_layers - 2) 0 = heads.getD (num_layers - 1) 0 := by
    rw [Nat.mul_comm]
    constructor
    · intro h
      exact (Nat.eq_of_mul_eq_mul_left (by omega) h).symm
    · intro h
      rw [h]
  simpa using key

/-- C10, witness: instantiated at `num_layers = 2`, `heads = [2, 2]`,
`num_hidden = 8`. -/
theorem c10_witness :
    ([2, 2] : List ℕ).length = 2 ∧ 2 ≤ 2 ∧ 1 ≤ 8 ∧
      (((mkLayerCfgs 2 5 8 3 [2, 2] false).getD 2 cfgDflt).in_dim
          = 8 * ([2, 2] : List ℕ).getD (2 - 2) 0 ∧
        loopWidth 2 (mkLayerCfgs 2 5 8 3 [2, 2] false) 5
          = some (([2, 2] : List ℕ).getD (2 - 1) 0 * 8) ∧
        ((forwardWidth 2 (mkLayerCfgs 2 5 8 3 [2, 2] false) 5).isSome ↔
          ([2, 2] : List ℕ).getD (2 - 2) 0 = ([2, 2] : List ℕ).getD (2 - 1) 0)) :=
  ⟨rfl, by decide, by decide,
    c10_output_layer_shape_consistency 2 5 8 3 [2, 2] false rfl (by decide)
      (by decide)⟩

/-- C3, counterexample: the claim says the learned residual projection is used
exactly when `in_dim = num_heads*out_dim` fails.  The constructor's test is
`in_dim != out_dim`: with `in_dim = out_dim = 2` and `3` heads,
`in_dim ≠ num_heads*out_dim` (`2 ≠ 6`), yet `res_fc` is `None` and the
broadcast path is taken. -/
theorem c3_counterexample :
    (mkGraphAttention2 wGraph 2 2 3 (fun _ _ => 0) (fun _ _ => 0)
        (fun _ _ _ => 0) (fun _ _ _ => 0) (fun _ _ => 0) 0 0 1 "0" true).residual
      = true ∧
    (2 : ℕ) ≠ 3 * 2 ∧
    (mkGraphAttention2 wGraph 2 2 3 (fun _ _ => 0) (fun _ _ => 0)
        (fun _ _ _ => 0) (fun _ _ _ => 0) (fun _ _ => 0) 0 0 1 "0" true).res_fcW
      = none := by
  refine ⟨rfl, by decide, ?_⟩
  simp [mkGraphAttention2]

/-- C3, amended: with the residual flag on, the layer adds the learned
projection `res_fc(h)` (reshaped to `[N, H, out_dim]`) exactly when
`in_dim == out_dim` is false, and otherwise adds the dropped input `h`
broadcast across the head dimension; the residual term is added elementwise
to the aggregated attention output. -/
theorem c3_residual_selection (g : DGLGraph) (in_dim out_dim num_heads : ℕ)
    (fc1W fc2W : ℕ → ℕ → ℝ) (attn_l attn_r : ℕ → ℕ → ℕ → ℝ)
    (resW : ℕ → ℕ → ℝ) (feat_drop attn_drop alpha : ℝ) (nm : String)
    (X fmask amask : ℕ → ℕ → ℝ) (n hd d : ℕ) :
    ((mkGraphAttention2 g in_dim out_dim num_heads fc1W fc2W attn_l attn_r resW
        feat_drop attn_drop alpha nm true).res_fcW
      = if in_dim = out_dim then none else some resW) ∧
    (mkGraphAttention2 g in_dim out_dim num_heads fc1W fc2W attn_l attn_r resW
        feat_drop attn_drop alpha nm true).forward X fmask amask n hd d
      = (if in_dim = out_dim
          then (mkGraphAttention2 g in_dim out_dim num_heads fc1W fc2W attn_l
            attn_r resW feat_drop attn_drop alpha nm true).hdrop X fmask n d
          else ∑ k ∈ Finset.range in_dim, resW (hd * out_dim + d) k *
            (mkGraphAttention2 g in_dim out_dim num_heads fc1W fc2W attn_l
              attn_r resW feat_drop attn_drop alpha nm true).hdrop X fmask n k)
        + (mkGraphAttention2 g in_dim out_dim num_heads fc1W fc2W attn_l attn_r
            resW feat_drop attn_drop alpha nm true).agg X fmask amask n hd d := by
  by_cases h : in_dim = out_dim <;>
    simp [mkGraphAttention2, GraphAttention2.forward, GraphAttention2.resval,
      GraphAttention2.hdrop, h]

/-- C4: the tensor `forward` returns is, before any residual addition, the
per-node sum over incoming edges of the source node's `ft` entry times the
edge's dropout-masked softmax weight `a_drop` — no division by a
post-aggregation normaliser `z` is applied. -/
theorem c4_weighted_sum_aggregation (L : GraphAttention2)
    (X fmask amask : ℕ → ℕ → ℝ) (n hd d : ℕ) :
    L.forward X fmask amask n hd d
      = (if L.residual then L.resval X fmask n hd d else 0)
        + ((L.g.inEdges n).map (fun e =>
            L.ft2 X fmask (L.g.src e) hd d * L.a_drop X fmask amask e hd)).sum := by
  by_cases h : L.residual <;>
    simp [GraphAttention2.forward, GraphAttention2.agg, h]

/-- C5: after the edge softmax and before attention dropout, the normalised
weights over the incoming edges of any destination node with at least one
incoming edge sum to `1`, for every head. -/
theorem c5_softmax_sums_to_one (L : GraphAttention2) (X fmask : ℕ → ℕ → ℝ)
    (v hd : ℕ) (hne : L.g.inEdges v ≠ []) :
    ((L.g.inEdges v).map (fun e => L.scores X fmask e hd)).sum = 1 := by
  have hdst : ∀ e ∈ L.g.inEdges v, L.g.dst e = v := by
    intro e he
    simp only [DGLGraph.inEdges, List.mem_filter, decide_eq_true_eq] at he
    exact he.2
  have hpos : 0 < ((L.g.inEdges v).map (fun e => L.expA X fmask e hd)).sum := by
    apply List.sum_pos
    · intro x hx
      obtain ⟨e, _, rfl⟩ := List.mem_map.mp hx
      exact Real.exp_pos _
    · simpa using hne
  have hmap : (L.g.inEdges v).map (fun e => L.scores X fmask e hd)
      = (L.g.inEdges v).map (fun e =>
          L.expA X fmask e hd * (L.sumExp X fmask v hd)⁻¹) := by
    apply List.map_congr_left
    intro e he
    simp [GraphAttention2.scores, hdst e he, div_eq_mul_inv]
  rw [hmap, List.sum_map_mul_right]
  exact mul_inv_cancel₀ (ne_of_gt hpos)

/-- C5, witness: in `wGraph`, node `1` has the single incoming edge `0 → 1`,
and its softmax weights sum to `1`. -/
theorem c5_witness :
    wLayer.g.inEdges 1 ≠ [] ∧
    ((wLayer.g.inEdges 1).map (fun e =>
        wLayer.scores (fun _ _ => 0) (fun _ _ => 0) e 0)).sum = 1 :=
  ⟨by decide, c5_softmax_sums_to_one wLayer _ _ 1 0 (by decide)⟩

/-- C6: when both dropout probabilities are `0`, both dropouts are the
identity passthrough and `forward` does not depend on the dropout masks (the
only source of randomness), so two calls with the same graph, inputs and
parameters agree exactly. -/
theorem c6_deterministic_without_dropout (L : GraphAttention2)
    (hf : L.feat_drop = 0) (ha : L.attn_drop = 0) (X : ℕ → ℕ → ℝ)
    (fmask amask fmask' amask' : ℕ → ℕ → ℝ) :
    L.forward X fmask amask = L.forward X fmask' amask' := by
  funext n hd d
  cases hres : L.res_fcW <;>
    simp [GraphAttention2.forward, GraphAttention2.agg, GraphAttention2.resval,
      GraphAttention2.a_drop, GraphAttention2.scores, GraphAttention2.expA,
      GraphAttention2.maxIn, GraphAttention2.sumExp, GraphAttention2.edgeA,
      GraphAttention2.a1, GraphAttention2.a2, GraphAttention2.head_ft, bmm,
      GraphAttention2.ft2, GraphAttention2.fc2out, GraphAttention2.h2,
      GraphAttention2.ft1, GraphAttention2.hdrop, dropout2, hf, ha, hres]

/-- C6, witness: `wLayer` has both probabilities `0`; two calls with
different masks coincide. -/
theorem c6_witness :
    wLayer.feat_drop = 0 ∧ wLayer.attn_drop = 0 ∧
    wLayer.forward (fun _ _ => 1) (fun _ _ => 1) (fun _ _ => 1)
      = wLayer.forward (fun _ _ => 1) (fun _ _ => 2) (fun _ _ => 3) :=
  ⟨rfl, rfl, c6_deterministic_without_dropout wLayer rfl rfl _ _ _ _ _⟩

/-- C7: the per-node per-head scalars are the batched dot products
`a1 = ft2 · attn_l` and `a2 = ft2 · attn_r` over `out_dim`, and each edge's
unnormalised logit is the leaky nonlinearity of `a1[src] + a2[dst]` — a pure
function of the two endpoint attributes. -/
theorem c7_attention_scalars (L : GraphAttention2) (X fmask : ℕ → ℕ → ℝ) :
    (∀ n hd, L.a1 X fmask n hd
        = ∑ d ∈ Finset.range L.out_dim, L.ft2 X fmask n hd d * L.attn_l hd d 0) ∧
    (∀ n hd, L.a2 X fmask n hd
        = ∑ d ∈ Finset.range L.out_dim, L.ft2 X fmask n hd d * L.attn_r hd d 0) ∧
    (∀ e hd, L.edgeA X fmask e hd
        = leakyReLU L.alpha
            (L.a1 X fmask (L.g.src e) hd + L.a2 X fmask (L.g.dst e) hd)) :=
  ⟨fun _ _ => rfl, fun _ _ => rfl, fun _ _ => rfl⟩

/-- C9: a node with no incoming edges gets the zero vector in every head when
the residual connection is off, and exactly its residual summand (the
broadcast dropped input, or its `res_fc` projection) when it is on. -/
theorem c9_isolated_node (L : GraphAttention2) (X fmask amask : ℕ → ℕ → ℝ)
    (v : ℕ) (hv : L.g.inEdges v = []) (hd d : ℕ) :
    L.forward X fmask amask v hd d
      = if L.residual then L.resval X fmask v hd d else 0 := by
  by_cases h : L.residual <;>
    simp [GraphAttention2.forward, GraphAttention2.agg, hv, h]

/-- C9, witness: node `0` of `wGraph` has no incoming edge. -/
theorem c9_witness :
    wLayer.g.inEdges 0 = [] ∧
    wLayer.forward (fun _ _ => 1) (fun _ _ => 0) (fun _ _ => 0) 0 0 0
      = if wLayer.residual
          then wLayer.resval (fun _ _ => 1) (fun _ _ => 0) 0 0 0 else 0 :=
  ⟨by decide, c9_isolated_node wLayer _ _ _ 0 (by decide) 0 0⟩

/-- C8: a single layer's forward output is an `[N, num_heads, out_dim]`
tensor for `N` input rows, and the stacked model's forward returns `[N,
num_classes]` logits, each entry obtained by averaging the final layer's
output over its `heads[-1]` heads. -/
theorem c8_output_shapes (L : GraphAttention2) (ins : List (List ℝ))
    (fm am : ℕ → ℕ → ℝ) (g : DGLGraph)
    (num_layers in_dim num_hidden num_classes : ℕ) (heads : List ℕ)
    (activation : ℝ → ℝ) (feat_drop attn_drop alpha : ℝ) (residual : Bool)
    (fc1Ws fc2Ws : ℕ → ℕ → ℕ → ℝ) (attn_ls attn_rs : ℕ → ℕ → ℕ → ℕ → ℝ)
    (resWs : ℕ → ℕ → ℕ → ℝ) (inputs : List (List ℝ))
    (fms ams : ℕ → ℕ → ℕ → ℝ) (n c : ℕ) (hnl : 1 ≤ num_layers)
    (hn : n < inputs.length) (hc : c < num_classes) :
    ((L.forwardT ins fm am).length = ins.length ∧
      ∀ r ∈ L.forwardT ins fm am, r.length = L.num_heads ∧
        ∀ q ∈ r, q.length = L.out_dim) ∧
    ((mkGAT2 g num_layers in_dim num_hidden num_classes heads activation
        feat_drop attn_drop alpha residual fc1Ws fc2Ws attn_ls attn_rs
        resWs).forward inputs fms ams).length = inputs.length ∧
    (∀ r ∈ (mkGAT2 g num_layers in_dim num_hidden num_classes heads activation
        feat_drop attn_drop alpha residual fc1Ws fc2Ws attn_ls attn_rs
        resWs).forward inputs fms ams, r.length = num_classes) ∧
    (((mkGAT2 g num_layers in_dim num_hidden num_classes heads activation
        feat_drop attn_drop alpha residual fc1Ws fc2Ws attn_ls attn_rs
        resWs).forward inputs fms ams).getD n []).getD c 0
      = (((((mkGAT2 g num_layers in_dim num_hidden num_classes heads activation
            feat_drop attn_drop alpha residual fc1Ws fc2Ws attn_ls attn_rs
            resWs).layers.getD
            ((mkGAT2 g num_layers in_dim num_hidden num_classes heads activation
              feat_drop attn_drop alpha residual fc1Ws fc2Ws attn_ls attn_rs
              resWs).layers.length - 1) defaultLayer).forwardT
            ((mkGAT2 g num_layers in_dim num_hidden num_classes heads activation
              feat_drop attn_drop alpha residual fc1Ws fc2Ws attn_ls attn_rs
              resWs).preOut inputs fms ams)
            (fms num_layers) (ams num_layers)).getD n []).map
          (fun hr => hr.getD c 0)).sum
        / ((heads.getD (heads.length - 1) 0 : ℕ) : ℝ) := by
  have hlast := mkGAT2_last_layer g num_layers in_dim num_hidden num_classes
    heads activation feat_drop attn_drop alpha residual fc1Ws fc2Ws attn_ls
    attn_rs resWs
  refine ⟨⟨forwardT_length L ins fm am, forwardT_shape L ins fm am⟩,
    GAT2_forward_length _ inputs fms ams, ?_, ?_⟩
  · intro r hr
    unfold GAT2.forward at hr
    simp only [List.mem_map] at hr
    obtain ⟨r0, _, rfl⟩ := hr
    rw [List.length_map, List.length_range, hlast]
    rfl
  · unfold GAT2.forward
    rw [getD_map_lt _ _ n (by rw [forwardT_length, preOut_length]; exact hn)
      ([] : List ℝ) ([] : List (List ℝ))]
    rw [hlast]
    simp only [mkGraphAttention2, mkGAT2]
    rw [getD_map_range _ _ c (0 : ℝ) hc]

/-- C8, witness: instantiated at `wLayer` on one input row and at a stacked
model with `num_layers = 1`, `heads = [1]`, `num_classes = 1`, zero weights,
on the single-node input `[[1]]`, at entry `n = 0`, `c = 0`. -/
theorem c8_witness :
    1 ≤ 1 ∧ 0 < ([[(1 : ℝ)]] : List (List ℝ)).length ∧ 0 < 1 ∧
    (((wLayer.forwardT [[(1 : ℝ)]] (fun _ _ => 0) (fun _ _ => 0)).length
        = ([[(1 : ℝ)]] : List (List ℝ)).length ∧
      ∀ r ∈ wLayer.forwardT [[(1 : ℝ)]] (fun _ _ => 0) (fun _ _ => 0),
        r.length = wLayer.num_heads ∧ ∀ q ∈ r, q.length = wLayer.out_dim) ∧
    ((mkGAT2 wGraph 1 1 1 1 [1] (fun x => x) 0 0 1 false (fun _ _ _ => 0)
        (fun _ _ _ => 0) (fun _ _ _ _ => 0) (fun _ _ _ _ => 0)
        (fun _ _ _ => 0)).forward [[(1 : ℝ)]] (fun _ _ _ => 0)
        (fun _ _ _ => 0)).length = ([[(1 : ℝ)]] : List (List ℝ)).length ∧
    (∀ r ∈ (mkGAT2 wGraph 1 1 1 1 [1] (fun x => x) 0 0 1 false
        (fun _ _ _ => 0) (fun _ _ _ => 0) (fun _ _ _ _ => 0)
        (fun _ _ _ _ => 0) (fun _ _ _ => 0)).forward [[(1 : ℝ)]]
        (fun _ _ _ => 0) (fun _ _ _ => 0), r.length = 1) ∧
    (((mkGAT2 wGraph 1 1 1 1 [1] (fun x => x) 0 0 1 false (fun _ _ _ => 0)
        (fun _ _ _ => 0) (fun _ _ _ _ => 0) (fun _ _ _ _ => 0)
        (fun _ _ _ => 0)).forward [[(1 : ℝ)]] (fun _ _ _ => 0)
        (fun _ _ _ => 0)).getD 0 []).getD 0 0
      = (((((mkGAT2 wGraph 1 1 1 1 [1] (fun x => x) 0 0 1 false
            (fun _ _ _ => 0) (fun _ _ _ => 0) (fun _ _ _ _ => 0)
            (fun _ _ _ _ => 0) (fun _ _ _ => 0)).layers.getD
            ((mkGAT2 wGraph 1 1 1 1 [1] (fun x => x) 0 0 1 false
              (fun _ _ _ => 0) (fun _ _ _ => 0) (fun _ _ _ _ => 0)
              (fun _ _ _ _ => 0) (fun _ _ _ => 0)).layers.length - 1)
            defaultLayer).forwardT
            ((mkGAT2 wGraph 1 1 1 1 [1] (fun x => x) 0 0 1 false
              (fun _ _ _ => 0) (fun _ _ _ => 0) (fun _ _ _ _ => 0)
              (fun _ _ _ _ => 0) (fun _ _ _ => 0)).preOut [[(1 : ℝ)]]
              (fun _ _ _ => 0) (fun _ _ _ => 0))
            ((fun _ _ _ => (0 : ℝ)) 1) ((fun _ _ _ => (0 : ℝ)) 1)).getD 0
            []).map (fun hr => hr.getD 0 0)).sum
        / ((([1] : List ℕ).getD (([1] : List ℕ).length - 1) 0 : ℕ) : ℝ)) :=
  ⟨by decide, by decide, by decide,
    c8_output_shapes wLayer [[(1 : ℝ)]] (fun _ _ => 0) (fun _ _ => 0) wGraph
      1 1 1 1 [1] (fun x => x) 0 0 1 false (fun _ _ _ => 0) (fun _ _ _ => 0)
      (fun _ _ _ _ => 0) (fun _ _ _ _ => 0) (fun _ _ _ => 0) [[(1 : ℝ)]]
      (fun _ _ _ => 0) (fun _ _ _ => 0) 0 0 (by decide) (by decide)
      (by decide)⟩

end GatSpec
